import Mathlib

/-!
Verification of the ticker-proxy aggregation endpoint (`src/api/ticker.js`).

The embedding models JavaScript numbers as exact rationals (`ℚ`), JS objects
used as string-keyed maps as functions `String → Option _`, and the stateful
module-level cache (`lastGoodSnapshot`, `lastGoodAt`, `lastGoodById`) as an
explicit `ServerState` threaded through the handler.  Network adapters other
than the Finnhub fallback are modelled as oracles supplying the
`{ data, error }` value each `fetch*` call resolves to; the Finnhub fallback
adapter (`fetchFinnhub`) is embedded concretely from the source because the
claims depend on its per-symbol structure.  `Date.now()` readings are inputs
(`nowStart` at handler entry, `now` for the later readings).  The identifier
list `ids` is the already-parsed `items` query parameter (split, trimmed,
decoded, empties dropped); the OPTIONS shortcut and the missing-`items`
400 response happen before the modelled pipeline and are outside it.
-/

/-- Raw per-identifier quote record as assembled into `merged` by the
adapters (`price`/`prevClose`/`changePct`/`changePct24h`/`source` fields,
plus the per-symbol `__error` marker set by `fetchTwelveData`). -/
structure RawQuote where
  price : Option ℚ
  prevClose : Option ℚ
  changePct : Option ℚ
  changePct24h : Option ℚ
  source : Option String
  err : Option String
deriving Repr, DecidableEq

/-- The `{}` default used in `mapItem(id, merged[id] || {})`. -/
def emptyRaw : RawQuote :=
  { price := none, prevClose := none, changePct := none, changePct24h := none,
    source := none, err := none }

/-- Result value `{ data, error }` every adapter resolves with. -/
structure FetchResult where
  data : List (String × RawQuote)
  error : Option String
deriving Repr, DecidableEq

/-- Canonical output item produced by `mapItem`. -/
structure Item where
  id : String
  label : String
  kind : String
  currency : String
  price : Option ℚ
  prevClose : Option ℚ
  source : String
  changeAbs : Option ℚ
  changePct : Option ℚ
  direction : String
deriving Repr, DecidableEq

/-- Debug `sources` entry: `{ name, wants }`. -/
structure SourceTag where
  name : String
  wants : List String
deriving Repr, DecidableEq

/-- Response `meta` object.  `isPartial` models the `partial` flag,
`errorMsg` the `error` field stamped on the snapshot-on-error path. -/
structure Meta where
  isPartial : Bool
  stale : Bool
  tookMs : Option ℕ
  errors : List String
  servedFrom : Option String
  snapshotAt : Option ℕ
  errorMsg : Option String
  sources : Option (List SourceTag)
deriving Repr, DecidableEq

/-- Response payload `{ ok, ts, items, meta }`. -/
structure Payload where
  ok : Bool
  ts : ℕ
  items : List Item
  meta : Meta
deriving Repr, DecidableEq

/-- Entry of the per-identifier memory `lastGoodById`; its `price` is always
non-null because entries are written only for items with a resolved price. -/
structure MemEntry where
  price : ℚ
  prevClose : Option ℚ
  source : String
  ts : ℕ
deriving Repr, DecidableEq

/-- Module-level mutable state of `ticker.js`. -/
structure ServerState where
  lastGoodSnapshot : Option Payload
  lastGoodAt : ℕ
  lastGoodById : String → Option MemEntry

/-- Upstream outcome of one per-symbol Finnhub call: non-ok HTTP status,
a parsed JSON body (`num(j.c)`, `num(j.pc)`), or a thrown exception name. -/
inductive FhOutcome where
  | httpErr (status : ℕ)
  | jsonResp (c : Option ℚ) (pc : Option ℚ)
  | netErr (name : String)
deriving Repr, DecidableEq

/-- Oracle environment for one request: what each adapter call resolves to,
the configuration flags, the deadline/fault outcome and the clock. -/
structure Env where
  twelve : List String → FetchResult
  crypto : List String → FetchResult
  criptoYa : FetchResult
  stooq : FetchResult
  fhToken : Bool
  fhOutcome : String → FhOutcome
  deadlineHit : Bool
  fault : Option String
  debug : Bool
  nowStart : ℕ
  now : ℕ

/-- String-keyed map holding `merged`. -/
def QuoteMap : Type := String → Option RawQuote

/-- Model of `Object.assign(m, kvs)`: later bindings overwrite earlier ones and `m`. -/
def assign (m : QuoteMap) (kvs : List (String × RawQuote)) : QuoteMap :=
  kvs.foldl (fun acc kv => fun s => if s = kv.1 then some kv.2 else acc s) m

/-- The empty `merged` object. -/
def emptyMap : QuoteMap := fun _ => none

/-- JS truthiness of `m[sym]?.price`: present and non-zero. -/
def truthyPrice (r : Option RawQuote) : Bool :=
  match r with
  | some q =>
    match q.price with
    | some p => !(p == 0)
    | none => false
  | none => false

/-- Model of `round(x, d) = Math.round(x * 10 ** d) / 10 ** d`; `Math.round` rounds to
the nearest integer, an exact half rounding toward positive infinity. -/
def jsRound (d : ℕ) (x : ℚ) : ℚ :=
  ((⌊x * 10 ^ d + 1 / 2⌋ : ℤ) : ℚ) / 10 ^ d

/-- Model of `raw?.source || "unknown"` (empty string is falsy). -/
def sourceOrUnknown (s : Option String) : String :=
  match s with
  | some v => if v == "" then "unknown" else v
  | none => "unknown"

/-- Static identifier → metadata table of `mapItem`, with its default row. -/
def metaFor (id : String) : String × String × String :=
  if id = "BTC" then ("Bitcoin", "crypto", "USD")
  else if id = "ETH" then ("Ethereum", "crypto", "USD")
  else if id = "OFICIAL" then ("Dólar Oficial", "fx_ars", "ARS")
  else if id = "BLUE" then ("Dólar Blue", "fx_ars", "ARS")
  else if id = "MEP" then ("Dólar MEP", "fx_ars", "ARS")
  else if id = "^GSPC" then ("S&P 500", "index", "USD")
  else if id = "NVDA" then ("Nvidia", "stock", "USD")
  else if id = "PLTR" then ("Palantir", "stock", "USD")
  else (id, "stock", "USD")

/-- Normalizer `mapItem(id, raw)`: maps one raw record to an `Item`, translated
statement by statement from the source. -/
def mapItem (id : String) (raw : RawQuote) : Item :=
  let m := metaFor id
  let step1 : Option ℚ × Option ℚ :=
    match raw.changePct24h with
    | some v => (none, some v)
    | none =>
      match raw.changePct with
      | some v => (none, some v)
      | none =>
        match raw.price, raw.prevClose with
        | some p, some pc =>
          if pc > 0 then (some (p - pc), some ((p - pc) / pc * 100)) else (none, none)
        | _, _ => (none, none)
  let ca1 := step1.1
  let cp := step1.2
  let dir : String :=
    match cp with
    | some v => if v > 0 then "up" else if v < 0 then "down" else "flat"
    | none => "flat"
  let ca2 : Option ℚ :=
    match cp with
    | some _ =>
      if ca1 = none ∧ raw.prevClose.isSome then
        match raw.price, raw.prevClose with
        | some p, some pc => some (p - pc)
        | _, _ => none
      else ca1
    | none => ca1
  { id := id, label := m.1, kind := m.2.1, currency := m.2.2,
    price := raw.price, prevClose := raw.prevClose,
    source := sourceOrUnknown raw.source,
    changeAbs := ca2.map (jsRound 4),
    changePct := cp.map (jsRound 2),
    direction := dir }

/-- Fixed crypto/FX/index codes excluded from the stock pattern. -/
def specialIds : List String := ["BTC", "ETH", "OFICIAL", "BLUE", "MEP", "^GSPC"]

/-- One character of the `^[A-Z.]+$` stock pattern. -/
def stockChar (c : Char) : Bool :=
  ((decide ('A' ≤ c)) && (decide (c ≤ 'Z'))) || c == '.'

/-- Model of `/^[A-Z.]+$/.test(s) && !specialIds.includes(s)`. -/
def isStockLike (s : String) : Bool :=
  (!s.toList.isEmpty) && s.toList.all stockChar && !(specialIds.contains s)

/-- Interest set `wantStocks`: stock-like identifiers, duplicates preserved. -/
def wantStocks (ids : List String) : List String := ids.filter isStockLike

/-- Interest set `wantCrypto`: the BTC/ETH occurrences. -/
def wantCrypto (ids : List String) : List String :=
  ids.filter (fun s => s == "BTC" || s == "ETH")

/-- Interest flag `wantFX`: some identifier is OFICIAL/BLUE/MEP. -/
def wantFX (ids : List String) : Bool :=
  ids.any (fun s => s == "OFICIAL" || s == "BLUE" || s == "MEP")

/-- Interest flag `wantSPX`: the index identifier was requested. -/
def wantSPX (ids : List String) : Bool := ids.contains "^GSPC"

/-- The primary-round job results, in launch order (twelvedata, crypto,
criptoya, stooq); each listed only when its interest set is non-empty. -/
def primaryResults (env : Env) (ids : List String) : List FetchResult :=
  (if wantStocks ids ≠ [] then [env.twelve (wantStocks ids)] else []) ++
  (if wantCrypto ids ≠ [] then [env.crypto (wantCrypto ids)] else []) ++
  (if wantFX ids then [env.criptoYa] else []) ++
  (if wantSPX ids then [env.stooq] else [])

/-- The `sources` entries pushed while launching the primary jobs. -/
def primarySources (ids : List String) : List SourceTag :=
  (if wantStocks ids ≠ [] then [⟨"twelvedata", wantStocks ids⟩] else []) ++
  (if wantCrypto ids ≠ [] then [⟨"coingecko/coinCap", wantCrypto ids⟩] else []) ++
  (if wantFX ids then [⟨"criptoya", ["OFICIAL", "BLUE", "MEP"]⟩] else []) ++
  (if wantSPX ids then [⟨"stooq-robust", ["^GSPC"]⟩] else [])

/-- Primary round `Promise.race([allSettled(jobs), deadline])` plus the merge loop:
if the deadline fires first the race rejects, the catch records
`global-deadline` and `merged` stays empty; otherwise each fulfilled job's
error is pushed and its data assigned into `merged`, in job order. -/
def runPrimary (env : Env) (ids : List String) : QuoteMap × List String :=
  if env.deadlineHit then (emptyMap, ["global-deadline"])
  else
    (primaryResults env ids).foldl
      (fun acc r => (assign acc.1 r.data, acc.2 ++ r.error.toList))
      (emptyMap, [])

/-- Fallback adapter `fetchFinnhub(symbols)`: one sub-request per symbol; a symbol is added to
`data` only when `num(j.c)` is non-null; per-symbol failures become tokens
joined with commas into one error string. -/
def fetchFinnhub (env : Env) (symbols : List String) : FetchResult :=
  if !env.fhToken || symbols.isEmpty then
    { data := [], error := some "finnhub-no-token-or-empty" }
  else
    let data := symbols.filterMap (fun sym =>
      match env.fhOutcome sym with
      | FhOutcome.jsonResp (some c) pc =>
        some (sym, { price := some c, prevClose := pc, changePct := none,
                     changePct24h := none, source := some "finnhub", err := none })
      | _ => none)
    let errs := symbols.filterMap (fun sym =>
      match env.fhOutcome sym with
      | FhOutcome.httpErr status => some ("fh-http-" ++ sym ++ "-" ++ toString status)
      | FhOutcome.jsonResp none _ => some ("fh-empty-" ++ sym)
      | FhOutcome.jsonResp (some _) _ => none
      | FhOutcome.netErr n => some ("fh-ex-" ++ sym ++ "-" ++ n))
    { data := data, error := if errs.isEmpty then none else some (String.intercalate "," errs) }

/-- The Finnhub fallback step: `missingStockIds` are the requested stock-like
symbols whose merged record has a falsy price (`!merged[sym]?.price`); the
fallback runs only when that set is non-empty and a token is configured.
Also returns which symbol list the fallback was invoked on, if any. -/
def stockFallback (env : Env) (ids : List String) (m0 : QuoteMap) (e0 : List String) :
    QuoteMap × List String × Option (List String) :=
  let missing := (wantStocks ids).filter (fun sym => !truthyPrice (m0 sym))
  if !missing.isEmpty && env.fhToken then
    let fh := fetchFinnhub env missing
    (assign m0 fh.data, e0 ++ fh.error.toList, some missing)
  else (m0, e0, none)

/-- The `^GSPC` last-good backfill: when the index was requested, its merged
price is falsy and the per-identifier memory has an entry, the memory value
is spread into `merged["^GSPC"]` (its `source` kept when truthy, else
`"snapshot-id"`) and `spx-used-last-good` is pushed.  Also returns whether
the substitution happened. -/
def spxBackfill (st : ServerState) (ids : List String) (m1 : QuoteMap) (e1 : List String) :
    QuoteMap × List String × Bool :=
  if wantSPX ids && !truthyPrice (m1 "^GSPC") then
    match st.lastGoodById "^GSPC" with
    | some mem =>
      let src : String :=
        match m1 "^GSPC" with
        | some q =>
          match q.source with
          | some s => if s == "" then "snapshot-id" else s
          | none => "snapshot-id"
        | none => "snapshot-id"
      (fun s => if s = "^GSPC" then
          some { price := some mem.price, prevClose := mem.prevClose, changePct := none,
                 changePct24h := none, source := some src, err := none }
        else m1 s,
       e1 ++ ["spx-used-last-good"], true)
    | none => (m1, e1, false)
  else (m1, e1, false)

/-- Trace of the per-request pipeline up to `items`/`hasAnyPrice`. -/
structure PipeOut where
  merged : QuoteMap
  errors : List String
  fhCalled : Option (List String)
  spxUsedLastGood : Bool
  items : List Item
  hasAnyPrice : Bool

/-- The fault-free pipeline: primary round, Finnhub fallback, `^GSPC`
backfill, then `items = ids.map(id => mapItem(id, merged[id] || {}))` and
`hasAnyPrice = items.some(it => it.price != null)`. -/
def pipeline (st : ServerState) (env : Env) (ids : List String) : PipeOut :=
  let pr := runPrimary env ids
  let fb := stockFallback env ids pr.1 pr.2
  let sx := spxBackfill st ids fb.1 fb.2.1
  let items := ids.map (fun id => mapItem id ((sx.1 id).getD emptyRaw))
  { merged := sx.1, errors := sx.2.1, fhCalled := fb.2.2, spxUsedLastGood := sx.2.2,
    items := items, hasAnyPrice := items.any (fun it => it.price.isSome) }

/-- The item-level memory write loop: every item with a non-null price
overwrites its `lastGoodById` entry. -/
def updateMem (mem : String → Option MemEntry) (items : List Item) (now : ℕ) :
    String → Option MemEntry :=
  items.foldl
    (fun m it =>
      match it.price with
      | some p => fun s => if s = it.id then some ⟨p, it.prevClose, it.source, now⟩ else m s
      | none => m)
    mem

/-- The debug `sources` list after the whole pipeline (primary pushes plus
the `finnhub-fallback` push when the fallback ran). -/
def allSourcesOf (ids : List String) (fhCalled : Option (List String)) : List SourceTag :=
  primarySources ids ++
    (match fhCalled with
     | some l => [⟨"finnhub-fallback", l⟩]
     | none => [])

/-- The live payload built on the serve-live path. -/
def livePayload (st : ServerState) (env : Env) (ids : List String) : Payload :=
  let po := pipeline st env ids
  { ok := true, ts := env.now, items := po.items,
    meta := { isPartial := po.items.any (fun it => it.price.isNone), stale := false,
              tookMs := some (env.now - env.nowStart), errors := po.errors,
              servedFrom := none, snapshotAt := none, errorMsg := none,
              sources := if env.debug then some (allSourcesOf ids po.fhCalled) else none } }

/-- Handler outcome: HTTP status, JSON body and the next module state. -/
structure HOut where
  status : ℕ
  resp : Payload
  st : ServerState

/-- The request handler after input validation, including the surrounding
`try`/`catch`: a pipeline fault (modelled by `env.fault`) is caught and
served from the snapshot (stamped `snapshot-on-error`) or as the degraded
empty payload; otherwise the pipeline runs, the item memory is updated, and
the response is either the cached snapshot (stamped `snapshot`) or the live
payload, the latter becoming the new snapshot when it has a priced item. -/
def handlerRun (st : ServerState) (env : Env) (ids : List String) : HOut :=
  match env.fault with
  | some msg =>
    match st.lastGoodSnapshot with
    | some snap =>
      let meta' := { snap.meta with servedFrom := some "snapshot-on-error", errorMsg := some msg }
      ⟨200, { snap with meta := meta' }, st⟩
    | none =>
      let meta' : Meta :=
        { isPartial := true, stale := true, tookMs := none, errors := [msg],
          servedFrom := none, snapshotAt := none, errorMsg := none, sources := none }
      ⟨200, { ok := true, ts := env.now, items := [], meta := meta' }, st⟩
  | none =>
    let po := pipeline st env ids
    let mem' := updateMem st.lastGoodById po.items env.now
    match po.hasAnyPrice, st.lastGoodSnapshot with
    | false, some snap =>
      let srcs := if env.debug then some (allSourcesOf ids po.fhCalled) else snap.meta.sources
      let meta' := { snap.meta with
                     servedFrom := some "snapshot"
                     snapshotAt := some st.lastGoodAt
                     sources := srcs }
      ⟨200, { snap with meta := meta' }, { st with lastGoodById := mem' }⟩
    | true, _ =>
      let payload := livePayload st env ids
      ⟨200, payload, ⟨some payload, env.now, mem'⟩⟩
    | false, none =>
      ⟨200, livePayload st env ids, { st with lastGoodById := mem' }⟩

/-- Spec-side percent-change precedence of §4.5: `changePct24h`, else
`changePct`, else the prevClose formula when both operands are present and
`prevClose > 0`, else null. -/
def specChangePct (raw : RawQuote) : Option ℚ :=
  match raw.changePct24h with
  | some v => some v
  | none =>
    match raw.changePct with
    | some v => some v
    | none =>
      match raw.price, raw.prevClose with
      | some p, some pc => if pc > 0 then some ((p - pc) / pc * 100) else none
      | _, _ => none

/-- Spec-side direction rule: sign of the percent change, `flat` on null. -/
def specDirection (cp : Option ℚ) : String :=
  match cp with
  | some v => if v > 0 then "up" else if v < 0 then "down" else "flat"
  | none => "flat"

/-- Spec-side absolute change before rounding: `price - prevClose` whenever a
percent change was determined and both operands are present, else null. -/
def rawChangeAbs (raw : RawQuote) : Option ℚ :=
  match specChangePct raw with
  | none => none
  | some _ =>
    match raw.price, raw.prevClose with
    | some p, some pc => some (p - pc)
    | _, _ => none

/-- Fresh module state: no snapshot, no per-identifier memory. -/
def stEmpty : ServerState := ⟨none, 0, fun _ => none⟩

/-- An adapter result carrying no data and an error token. -/
def frFail : FetchResult := ⟨[], some "src-failed"⟩

/-- Environment in which every adapter fails and no fallback is configured. -/
def envFail : Env :=
  { twelve := fun _ => frFail, crypto := fun _ => frFail, criptoYa := frFail, stooq := frFail,
    fhToken := false, fhOutcome := fun _ => FhOutcome.httpErr 500,
    deadlineHit := false, fault := none, debug := false, nowStart := 10, now := 15 }

/-- Environment whose primary stock adapter resolves NVDA at price 100. -/
def envNvda : Env :=
  { envFail with
    twelve := fun _ =>
      ⟨[("NVDA", { price := some 100, prevClose := none, changePct := none,
                   changePct24h := none, source := some "twelvedata", err := none })], none⟩ }

theorem mapItem_changePct_eq (id : String) (raw : RawQuote) :
    (mapItem id raw).changePct = (specChangePct raw).map (jsRound 2) := by
  rcases raw with ⟨p, pc, cp, cp24, src, er⟩
  cases cp24 <;> cases cp <;> cases p <;> cases pc <;>
    simp [mapItem, specChangePct] <;> split_ifs <;> simp

theorem mapItem_direction_eq (id : String) (raw : RawQuote) :
    (mapItem id raw).direction = specDirection (specChangePct raw) := by
  rcases raw with ⟨p, pc, cp, cp24, src, er⟩
  cases cp24 <;> cases cp <;> cases p <;> cases pc <;>
    simp [mapItem, specChangePct, specDirection] <;> split_ifs <;> simp_all

theorem mapItem_changeAbs_eq (id : String) (raw : RawQuote) :
    (mapItem id raw).changeAbs = (rawChangeAbs raw).map (jsRound 4) := by
  rcases raw with ⟨p, pc, cp, cp24, src, er⟩
  cases cp24 <;> cases cp <;> cases p <;> cases pc <;>
    simp [mapItem, specChangePct, rawChangeAbs] <;> split_ifs <;> simp_all

/-- C5: the normalizer determines the percent change by first-match
precedence (`changePct24h`, else `changePct`, else the prevClose formula
when `price` and `prevClose` are present and `prevClose > 0`, else null);
direction is the sign of the resulting percent change with `flat` for null;
and a record carrying only `changePct24h = -5` yields direction `down`,
`changePct = -5`, and a null `changeAbs`. -/
theorem C5_change_precedence_and_direction (id : String) (raw : RawQuote) :
    (mapItem id raw).changePct = (specChangePct raw).map (jsRound 2) ∧
    (mapItem id raw).direction = specDirection (specChangePct raw) ∧
    (∀ v : ℚ, (mapItem id { emptyRaw with changePct24h := some v }).changeAbs = none) ∧
    (mapItem id { emptyRaw with changePct24h := some (-5) }).direction = "down" ∧
    (mapItem id { emptyRaw with changePct24h := some (-5) }).changePct = some (-5) := by
  refine ⟨mapItem_changePct_eq id raw, mapItem_direction_eq id raw, ?_, ?_, ?_⟩
  · intro v; simp [mapItem, emptyRaw]
  · norm_num [mapItem, emptyRaw]
  · norm_num [mapItem, emptyRaw, jsRound]

/-- C6 counterexample: on a record with `changePct24h = -1/8` the code
rounds the percent change `-12.5` (hundredths) to `-0.12 = -3/25`, not to
the away-from-zero value `-0.13`; exact negative halves round toward zero. -/
theorem C6_counterexample :
    (mapItem "NVDA" { emptyRaw with changePct24h := some (-1/8) }).changePct =
      some (-3/25) ∧ (-3/25 : ℚ) ≠ -13/100 := by
  constructor
  · norm_num [mapItem, emptyRaw, jsRound]
  · norm_num

/-- C6 (amended): `changeAbs` is the raw absolute change rounded to 4
decimal places and `changePct` the raw percent change rounded to 2, null
propagating to null; the rounding rule is round-to-nearest with exact
halves rounded toward positive infinity (so an exactly-halfway negative
value rounds toward zero, not away from it): the result is within half an
ulp of the input and on an exact half it is the larger neighbour. -/
theorem C6_rounding (id : String) (raw : RawQuote) :
    (mapItem id raw).changeAbs = (rawChangeAbs raw).map (jsRound 4) ∧
    (mapItem id raw).changePct = (specChangePct raw).map (jsRound 2) ∧
    (∀ (d : ℕ) (x : ℚ), |x - jsRound d x| ≤ 1 / (2 * 10 ^ d)) ∧
    (∀ (d : ℕ) (m : ℤ) (x : ℚ), x * 10 ^ d = m + 1/2 →
      jsRound d x = x + 1 / (2 * 10 ^ d)) := by
  refine ⟨mapItem_changeAbs_eq id raw, mapItem_changePct_eq id raw, ?_, ?_⟩
  · intro d x
    have h10 : (0 : ℚ) < 10 ^ d := by positivity
    have hle : (⌊x * 10 ^ d + 1 / 2⌋ : ℚ) ≤ x * 10 ^ d + 1 / 2 := Int.floor_le _
    have hgt : x * 10 ^ d + 1 / 2 < (⌊x * 10 ^ d + 1 / 2⌋ : ℚ) + 1 := Int.lt_floor_add_one _
    have key : |x * 10 ^ d - (⌊x * 10 ^ d + 1 / 2⌋ : ℚ)| ≤ 1 / 2 := by
      rw [abs_le]; constructor <;> linarith
    have hrepr : x - jsRound d x = (x * 10 ^ d - (⌊x * 10 ^ d + 1 / 2⌋ : ℚ)) / 10 ^ d := by
      rw [jsRound]; field_simp
    rw [hrepr, abs_div, abs_of_pos h10,
      div_le_div_iff h10 (by positivity : (0 : ℚ) < 2 * 10 ^ d)]
    nlinarith [key, h10]
  · intro d m x hx
    have h10 : (0 : ℚ) < 10 ^ d := by positivity
    have : x * 10 ^ d + 1 / 2 = (m : ℚ) + 1 := by rw [hx]; ring
    rw [jsRound, this]
    have hfl : ⌊(m : ℚ) + 1⌋ = m + 1 := by
      rw [show ((m : ℚ) + 1) = ((m + 1 : ℤ) : ℚ) by push_cast; ring, Int.floor_intCast]
    rw [hfl]
    have hx' : x = ((m : ℚ) + 1/2) / 10 ^ d := by
      field_simp at hx ⊢
      linarith [hx]
    rw [hx']
    push_cast
    field_simp
    ring

/-- Environment in which every adapter fails and the pipeline additionally
raises an unhandled fault. -/
def envFault : Env := { envFail with fault := some "boom" }

/-- Module state after serving `envNvda` on `["NVDA"]` from a fresh state:
it caches that request's live payload as the snapshot. -/
def stAfterNvda : ServerState := (handlerRun stEmpty envNvda ["NVDA"]).st

/-- The live payload of the `envNvda` request, i.e. the cached snapshot. -/
def snapNvda : Payload := livePayload stEmpty envNvda ["NVDA"]

theorem pipeline_hasAnyPrice (st : ServerState) (env : Env) (ids : List String) :
    (pipeline st env ids).hasAnyPrice =
      (pipeline st env ids).items.any (fun it => it.price.isSome) := rfl

theorem anyPrice_false_of_all_none {l : List Item}
    (h : l.all (fun it => it.price.isNone) = true) :
    l.any (fun it => it.price.isSome) = false := by
  simp only [List.all_eq_true] at h
  simp only [List.any_eq_false]
  intro it hit
  have h' := h it hit
  rw [Option.isNone_iff_eq_none] at h'
  simp [h']

theorem C6_rounding_witness : jsRound 2 (-1/8 : ℚ) = -1/8 + 1 / (2 * 10 ^ 2) :=
  (C6_rounding "NVDA" emptyRaw).2.2.2 2 (-13) (-1/8) (by norm_num)

/-- C2: the cached whole-payload snapshot after a fault-free request is the
request's live payload exactly when some normalized item has a non-null
price, and is the previous snapshot (unmodified) otherwise. -/
theorem C2_snapshot_update (st : ServerState) (env : Env) (ids : List String)
    (hf : env.fault = none) :
    (handlerRun st env ids).st.lastGoodSnapshot =
      if (pipeline st env ids).items.any (fun it => it.price.isSome)
      then some (livePayload st env ids) else st.lastGoodSnapshot := by
  cases hA : (pipeline st env ids).hasAnyPrice with
  | false =>
    cases hS : st.lastGoodSnapshot with
    | none => simp [handlerRun, hf, hA, hS, ← pipeline_hasAnyPrice]
    | some snap => simp [handlerRun, hf, hA, hS, ← pipeline_hasAnyPrice]
  | true => simp [handlerRun, hf, hA, ← pipeline_hasAnyPrice]

theorem C2_snapshot_update_witness :
    (handlerRun stEmpty envNvda ["NVDA"]).st.lastGoodSnapshot =
      if (pipeline stEmpty envNvda ["NVDA"]).items.any (fun it => it.price.isSome)
      then some (livePayload stEmpty envNvda ["NVDA"]) else stEmpty.lastGoodSnapshot :=
  C2_snapshot_update stEmpty envNvda ["NVDA"] rfl

/-- C3: a fault-free request whose normalized items all lack a price, made
while a snapshot exists, is answered with the snapshot: same items, meta
stamped `servedFrom = "snapshot"` and `snapshotAt = lastGoodAt`, and the
snapshot's own error list rather than the failing request's. -/
theorem C3_snapshot_served (st : ServerState) (env : Env) (ids : List String) (snap : Payload)
    (hf : env.fault = none)
    (hall : (pipeline st env ids).items.all (fun it => it.price.isNone) = true)
    (hs : st.lastGoodSnapshot = some snap) :
    (handlerRun st env ids).resp.items = snap.items ∧
    (handlerRun st env ids).resp.meta.servedFrom = some "snapshot" ∧
    (handlerRun st env ids).resp.meta.snapshotAt = some st.lastGoodAt ∧
    (handlerRun st env ids).resp.meta.errors = snap.meta.errors := by
  have hA : (pipeline st env ids).hasAnyPrice = false := by
    rw [pipeline_hasAnyPrice]; exact anyPrice_false_of_all_none hall
  refine ⟨?_, ?_, ?_, ?_⟩ <;> simp [handlerRun, hf, hA, hs]

theorem C3_snapshot_served_witness :
    (handlerRun stAfterNvda envFail ["AAA"]).resp.items = snapNvda.items ∧
    (handlerRun stAfterNvda envFail ["AAA"]).resp.meta.servedFrom = some "snapshot" ∧
    (handlerRun stAfterNvda envFail ["AAA"]).resp.meta.snapshotAt =
      some stAfterNvda.lastGoodAt ∧
    (handlerRun stAfterNvda envFail ["AAA"]).resp.meta.errors = snapNvda.meta.errors :=
  C3_snapshot_served stAfterNvda envFail ["AAA"] snapNvda rfl (by decide) (by decide)

/-- C1 counterexample: a request for two identifiers served from a snapshot
cached by an earlier one-identifier request returns the snapshot's single
item, so the response's items do not match the supplied identifiers. -/
theorem C1_counterexample :
    (handlerRun stAfterNvda envFail ["AAA", "BBB"]).resp.items.map Item.id ≠
      ["AAA", "BBB"] := by decide

/-- C1 (amended): for every fault-free request answered live — some item
has a price, or no snapshot exists — the response's items array has exactly
one element per supplied identifier, duplicates included, in the supplied
order; a snapshot-served response instead carries the snapshot's items. -/
theorem C1_live_items_in_order (st : ServerState) (env : Env) (ids : List String)
    (hf : env.fault = none)
    (hlive : (pipeline st env ids).items.any (fun it => it.price.isSome) = true ∨
      st.lastGoodSnapshot = none) :
    (handlerRun st env ids).resp.items.map Item.id = ids := by
  have hmap : (pipeline st env ids).items.map Item.id = ids := by
    show (ids.map _).map Item.id = ids
    rw [List.map_map]
    exact List.map_id' ids
  cases hA : (pipeline st env ids).hasAnyPrice with
  | true => simpa [handlerRun, hf, hA, livePayload] using hmap
  | false =>
    rcases hlive with hlive | hlive
    · rw [pipeline_hasAnyPrice] at hA; rw [hA] at hlive; cases hlive
    · simpa [handlerRun, hf, hA, hlive, livePayload] using hmap

theorem C1_live_items_in_order_witness :
    (handlerRun stEmpty envNvda ["NVDA", "NVDA", "BTC"]).resp.items.map Item.id =
      ["NVDA", "NVDA", "BTC"] :=
  C1_live_items_in_order stEmpty envNvda ["NVDA", "NVDA", "BTC"] rfl (Or.inr rfl)

/-- C4 counterexample: when every adapter fails and no snapshot exists the
live degraded payload is served with `meta.stale = false`, not `true` as
the claim states. -/
theorem C4_counterexample :
    (handlerRun stEmpty envFail ["NVDA"]).resp.items.all
      (fun it => it.price.isNone) = true ∧
    (handlerRun stEmpty envFail ["NVDA"]).resp.meta.stale = false := by decide

/-- C4 (amended): for a fault-free request in which no identifier resolves
a price and no snapshot exists, every returned item has a null price,
`meta.partial` is true, and `meta.stale` is false (the live path never sets
it). -/
theorem C4_all_failed_no_snapshot (st : ServerState) (env : Env) (ids : List String)
    (hf : env.fault = none) (hs : st.lastGoodSnapshot = none) (hne : ids ≠ [])
    (hall : (pipeline st env ids).items.all (fun it => it.price.isNone) = true) :
    (handlerRun st env ids).resp.items.all (fun it => it.price.isNone) = true ∧
    (handlerRun st env ids).resp.meta.stale = false ∧
    (handlerRun st env ids).resp.meta.isPartial = true := by
  have hA : (pipeline st env ids).hasAnyPrice = false := by
    rw [pipeline_hasAnyPrice]; exact anyPrice_false_of_all_none hall
  have hitems : (pipeline st env ids).items ≠ [] := by
    show ids.map _ ≠ []
    simpa using hne
  have hpart : (pipeline st env ids).items.any (fun it => it.price.isNone) = true := by
    rcases List.exists_mem_of_ne_nil _ hitems with ⟨it, hit⟩
    rw [List.all_eq_true] at hall
    rw [List.any_eq_true]
    exact ⟨it, hit, hall it hit⟩
  refine ⟨?_, ?_, ?_⟩ <;> simp [handlerRun, hf, hA, hs, livePayload, hall, hpart]

theorem C4_all_failed_no_snapshot_witness :
    (handlerRun stEmpty envFail ["NVDA"]).resp.items.all
      (fun it => it.price.isNone) = true ∧
    (handlerRun stEmpty envFail ["NVDA"]).resp.meta.stale = false ∧
    (handlerRun stEmpty envFail ["NVDA"]).resp.meta.isPartial = true :=
  C4_all_failed_no_snapshot stEmpty envFail ["NVDA"] rfl rfl (by decide) (by decide)

/-- C9: a pipeline fault is always caught: the response status is 200; with
a snapshot present the snapshot's items are served with meta stamped
`servedFrom = "snapshot-on-error"` and the fault message; with no snapshot
an empty success payload is served with every item price null (vacuously),
`partial = true`, `stale = true` and the fault message as the error list. -/
theorem C9_fault_contained (st : ServerState) (env : Env) (ids : List String) (msg : String)
    (hf : env.fault = some msg) :
    (handlerRun st env ids).status = 200 ∧
    (∀ snap, st.lastGoodSnapshot = some snap →
      (handlerRun st env ids).resp.items = snap.items ∧
      (handlerRun st env ids).resp.meta.servedFrom = some "snapshot-on-error" ∧
      (handlerRun st env ids).resp.meta.errorMsg = some msg) ∧
    (st.lastGoodSnapshot = none →
      (handlerRun st env ids).resp.ok = true ∧
      (handlerRun st env ids).resp.items = [] ∧
      (handlerRun st env ids).resp.meta.isPartial = true ∧
      (handlerRun st env ids).resp.meta.stale = true ∧
      (handlerRun st env ids).resp.meta.errors = [msg]) := by
  refine ⟨?_, ?_, ?_⟩
  · cases hS : st.lastGoodSnapshot <;> simp [handlerRun, hf, hS]
  · intro snap hS
    refine ⟨?_, ?_, ?_⟩ <;> simp [handlerRun, hf, hS]
  · intro hS
    refine ⟨?_, ?_, ?_, ?_, ?_⟩ <;> simp [handlerRun, hf, hS]

theorem C9_fault_contained_witness :
    (handlerRun stAfterNvda envFault ["AAA"]).status = 200 ∧
    (handlerRun stAfterNvda envFault ["AAA"]).resp.items = snapNvda.items ∧
    (handlerRun stAfterNvda envFault ["AAA"]).resp.meta.servedFrom =
      some "snapshot-on-error" ∧
    (handlerRun stAfterNvda envFault ["AAA"]).resp.meta.errorMsg = some "boom" := by
  have h := C9_fault_contained stAfterNvda envFault ["AAA"] "boom" rfl
  have h2 := h.2.1 snapNvda (by decide)
  exact ⟨h.1, h2.1, h2.2.1, h2.2.2⟩

theorem assign_eq_of_keys_ne (m : QuoteMap) (kvs : List (String × RawQuote)) (s : String)
    (h : ∀ kv ∈ kvs, kv.1 ≠ s) : assign m kvs s = m s := by
  induction kvs generalizing m with
  | nil => rfl
  | cons kv rest ih =>
    show assign (fun s' => if s' = kv.1 then some kv.2 else m s') rest s = m s
    rw [ih _ (fun kv' h' => h kv' (List.mem_cons_of_mem _ h'))]
    have hne : s ≠ kv.1 := fun hEq => h kv (List.mem_cons_self _ _) hEq.symm
    simp [hne]

theorem fetchFinnhub_keys (env : Env) (l : List String) :
    ∀ kv ∈ (fetchFinnhub env l).data, kv.1 ∈ l := by
  intro kv hkv
  unfold fetchFinnhub at hkv
  by_cases hc : (!env.fhToken || l.isEmpty) = true
  · simp [hc] at hkv
  · rw [if_neg hc] at hkv
    simp only [List.mem_filterMap] at hkv
    rcases hkv with ⟨a, ha, hfa⟩
    cases ho : env.fhOutcome a with
    | httpErr s => rw [ho] at hfa; cases hfa
    | netErr n => rw [ho] at hfa; cases hfa
    | jsonResp c pc =>
      cases c with
      | none => rw [ho] at hfa; cases hfa
      | some v =>
        rw [ho] at hfa
        cases hfa
        exact ha

/-- Environment whose primary stock adapter resolves XYZ with the non-null
price 0 and whose configured Finnhub fallback would resolve it at 5. -/
def envZero : Env :=
  { envFail with
    twelve := fun _ =>
      ⟨[("XYZ", { price := some 0, prevClose := none, changePct := none,
                  changePct24h := none, source := some "twelvedata", err := none })], none⟩,
    fhToken := true,
    fhOutcome := fun _ => FhOutcome.jsonResp (some 5) none }

/-- C7 counterexample: after the primary round XYZ holds the non-null price
0, yet the Finnhub fallback is invoked on it (JS `!merged[sym]?.price` is
truthiness, not a null test) and its merged record is overwritten. -/
theorem C7_counterexample :
    ((runPrimary envZero ["XYZ"]).1 "XYZ").bind RawQuote.price = some 0 ∧
    (pipeline stEmpty envZero ["XYZ"]).fhCalled = some ["XYZ"] ∧
    (pipeline stEmpty envZero ["XYZ"]).merged "XYZ" ≠
      (runPrimary envZero ["XYZ"]).1 "XYZ" := by decide

/-- C7 (amended): the stock fallback is invoked exactly on the stock-like
requested identifiers whose merged record lacks a truthy price — non-null
and non-zero — after the primary round (and only when that set is non-empty
and a fallback credential is configured), and the merged record of every
identifier holding a truthy price after the primary round is unchanged by
the fallback merge. -/
theorem C7_fallback_scope (env : Env) (ids : List String) (m0 : QuoteMap) (e0 : List String) :
    ((stockFallback env ids m0 e0).2.2 =
      if (!((wantStocks ids).filter (fun sym => !truthyPrice (m0 sym))).isEmpty
          && env.fhToken) = true
      then some ((wantStocks ids).filter (fun sym => !truthyPrice (m0 sym))) else none) ∧
    (∀ sym, truthyPrice (m0 sym) = true →
      (stockFallback env ids m0 e0).1 sym = m0 sym) := by
  constructor
  · unfold stockFallback
    by_cases hc : (!((wantStocks ids).filter (fun sym => !truthyPrice (m0 sym))).isEmpty
        && env.fhToken) = true
    · rw [if_pos hc, if_pos hc]
    · rw [if_neg hc, if_neg hc]
  · intro sym hsym
    unfold stockFallback
    by_cases hc : (!((wantStocks ids).filter (fun sym => !truthyPrice (m0 sym))).isEmpty
        && env.fhToken) = true
    · rw [if_pos hc]
      refine assign_eq_of_keys_ne m0 _ sym (fun kv hkv hEq => ?_)
      have hmem := fetchFinnhub_keys env _ kv hkv
      rw [hEq] at hmem
      rw [List.mem_filter] at hmem
      rw [hsym] at hmem
      simp at hmem
    · rw [if_neg hc]

theorem C7_fallback_scope_witness :
    (stockFallback envNvda ["NVDA"] (runPrimary envNvda ["NVDA"]).1 []).1 "NVDA" =
      (runPrimary envNvda ["NVDA"]).1 "NVDA" :=
  (C7_fallback_scope envNvda ["NVDA"] (runPrimary envNvda ["NVDA"]).1 []).2 "NVDA" (by decide)

/-- State whose per-identifier memory remembers the index at price 4000. -/
def stMemSpx : ServerState :=
  ⟨none, 0, fun s => if s = "^GSPC" then some ⟨4000, none, "stooq", 5⟩ else none⟩

/-- Environment whose index adapter resolves the index with price 0. -/
def envSpxZero : Env :=
  { envFail with
    stooq := ⟨[("^GSPC", { price := some 0, prevClose := none, changePct := none,
                           changePct24h := none, source := some "stooq", err := none })], none⟩ }

/-- C8 counterexample: the index resolves with the non-null price 0, yet the
memory backfill still fires (the code tests JS truthiness, not null),
substituting the remembered price 4000 and appending the marker token. -/
theorem C8_counterexample :
    ((runPrimary envSpxZero ["^GSPC"]).1 "^GSPC").bind RawQuote.price = some 0 ∧
    (pipeline stMemSpx envSpxZero ["^GSPC"]).spxUsedLastGood = true ∧
    ((pipeline stMemSpx envSpxZero ["^GSPC"]).merged "^GSPC").bind RawQuote.price =
      some 4000 ∧
    "spx-used-last-good" ∈ (pipeline stMemSpx envSpxZero ["^GSPC"]).errors := by decide

/-- C8 (amended): when the index was requested, the memory substitution
fires exactly when the index's merged record lacks a truthy price — non-null
and non-zero — and the per-identifier memory holds an entry for it; when it
fires, the memory entry's price is substituted for the index and the
distinct `spx-used-last-good` token is appended to the error list; when it
does not fire, the merged map and error list are unchanged. -/
theorem C8_spx_backfill (st : ServerState) (ids : List String) (m1 : QuoteMap)
    (e1 : List String) :
    ((spxBackfill st ids m1 e1).2.2 =
      (wantSPX ids && !truthyPrice (m1 "^GSPC") && (st.lastGoodById "^GSPC").isSome)) ∧
    (∀ mem, st.lastGoodById "^GSPC" = some mem → wantSPX ids = true →
      truthyPrice (m1 "^GSPC") = false →
      ((spxBackfill st ids m1 e1).1 "^GSPC").bind RawQuote.price = some mem.price ∧
      (spxBackfill st ids m1 e1).2.1 = e1 ++ ["spx-used-last-good"]) ∧
    ((spxBackfill st ids m1 e1).2.2 = false →
      (spxBackfill st ids m1 e1).1 = m1 ∧ (spxBackfill st ids m1 e1).2.1 = e1) := by
  refine ⟨?_, ?_, ?_⟩
  · unfold spxBackfill
    by_cases hg : (wantSPX ids && !truthyPrice (m1 "^GSPC")) = true
    · rw [if_pos hg]
      cases hM : st.lastGoodById "^GSPC" with
      | none => simp [hg, hM]
      | some mem => simp [hg, hM]
    · rw [if_neg hg]
      rw [eq_false_of_ne_true hg]
      simp
  · intro mem hM hW hT
    unfold spxBackfill
    rw [if_pos (by rw [hW, hT]; rfl), hM]
    constructor
    · simp
    · rfl
  · intro hF
    unfold spxBackfill at hF ⊢
    by_cases hg : (wantSPX ids && !truthyPrice (m1 "^GSPC")) = true
    · rw [if_pos hg] at hF ⊢
      cases hM : st.lastGoodById "^GSPC" with
      | none => exact ⟨rfl, rfl⟩
      | some mem => rw [hM] at hF; simp at hF
    · rw [if_neg hg]
      exact ⟨rfl, rfl⟩

theorem C8_spx_backfill_witness :
    ((spxBackfill stMemSpx ["^GSPC"] emptyMap []).1 "^GSPC").bind RawQuote.price =
      some 4000 ∧
    (spxBackfill stMemSpx ["^GSPC"] emptyMap []).2.1 = [] ++ ["spx-used-last-good"] :=
  (C8_spx_backfill stMemSpx ["^GSPC"] emptyMap []).2.1 ⟨4000, none, "stooq", 5⟩
    (by decide) (by decide) (by decide)

/-- Erase the per-symbol `__error` marker of one raw record. -/
def stripRaw (q : RawQuote) : RawQuote := { q with err := none }

/-- Erase the `__error` markers of an adapter result's records. -/
def stripFR (r : FetchResult) : FetchResult :=
  { r with data := r.data.map (fun kv => (kv.1, stripRaw kv.2)) }

/-- Erase the `__error` markers throughout a merged map. -/
def stripMap (m : QuoteMap) : QuoteMap := fun s => (m s).map stripRaw

/-- Erase the `__error` markers from every oracle adapter result. -/
def stripEnv (env : Env) : Env :=
  { env with twelve := fun l => stripFR (env.twelve l),
             crypto := fun l => stripFR (env.crypto l),
             criptoYa := stripFR env.criptoYa, stooq := stripFR env.stooq }

theorem stripMap_empty : stripMap emptyMap = emptyMap := funext fun _ => rfl

theorem assign_stripMap (kvs : List (String × RawQuote)) (m : QuoteMap) :
    assign (stripMap m) (kvs.map (fun kv => (kv.1, stripRaw kv.2))) =
      stripMap (assign m kvs) := by
  induction kvs generalizing m with
  | nil => rfl
  | cons kv rest ih =>
    show assign (fun s => if s = kv.1 then some (stripRaw kv.2) else stripMap m s) _ = _
    have hstep : (fun s => if s = kv.1 then some (stripRaw kv.2) else stripMap m s) =
        stripMap (fun s => if s = kv.1 then some kv.2 else m s) := by
      funext s
      by_cases h : s = kv.1 <;> simp [h, stripMap]
    rw [hstep]
    exact ih _

theorem truthyPrice_stripMap (m : QuoteMap) (s : String) :
    truthyPrice (stripMap m s) = truthyPrice (m s) := by
  cases h : m s with
  | none => simp [stripMap, h, truthyPrice]
  | some q => cases hq : q.price <;> simp [stripMap, h, truthyPrice, stripRaw, hq]

theorem mapItem_stripRaw (id : String) (q : RawQuote) :
    mapItem id (stripRaw q) = mapItem id q := rfl

theorem primaryResults_strip (env : Env) (ids : List String) :
    primaryResults (stripEnv env) ids = (primaryResults env ids).map stripFR := by
  unfold primaryResults
  split_ifs <;> simp [stripEnv]

theorem runPrimary_strip (env : Env) (ids : List String) :
    runPrimary (stripEnv env) ids =
      (stripMap (runPrimary env ids).1, (runPrimary env ids).2) := by
  unfold runPrimary
  have hdl : (stripEnv env).deadlineHit = env.deadlineHit := rfl
  rw [hdl]
  cases hD : env.deadlineHit with
  | true => simp [stripMap_empty]
  | false =>
    simp only [Bool.false_eq_true, if_false]
    rw [primaryResults_strip]
    generalize primaryResults env ids = rs
    have main : ∀ (rs : List FetchResult) (m : QuoteMap) (es : List String),
        (rs.map stripFR).foldl
            (fun acc r => (assign acc.1 r.data, acc.2 ++ r.error.toList)) (stripMap m, es) =
          (stripMap ((rs.foldl
            (fun acc r => (assign acc.1 r.data, acc.2 ++ r.error.toList)) (m, es)).1),
           (rs.foldl
            (fun acc r => (assign acc.1 r.data, acc.2 ++ r.error.toList)) (m, es)).2) := by
      intro rs
      induction rs with
      | nil => intro m es; rfl
      | cons r rest ih =>
        intro m es
        show (rest.map stripFR).foldl _ (assign (stripMap m) (stripFR r).data,
          es ++ (stripFR r).error.toList) = _
        have herr : (stripFR r).error = r.error := rfl
        have hdata : assign (stripMap m) (stripFR r).data = stripMap (assign m r.data) :=
          assign_stripMap r.data m
        rw [herr, hdata]
        exact ih (assign m r.data) (es ++ r.error.toList)
    have h0 := main rs emptyMap []
    rw [stripMap_empty] at h0
    exact h0

theorem fetchFinnhub_strip (env : Env) (l : List String) :
    fetchFinnhub (stripEnv env) l = fetchFinnhub env l := rfl

theorem fetchFinnhub_data_err_free (env : Env) (l : List String) :
    ((fetchFinnhub env l).data).map (fun kv => (kv.1, stripRaw kv.2)) =
      (fetchFinnhub env l).data := by
  unfold fetchFinnhub
  by_cases hc : (!env.fhToken || l.isEmpty) = true
  · simp [hc]
  · rw [if_neg hc]
    simp only
    rw [List.map_filterMap]
    refine List.filterMap_congr (fun a _ => ?_)
    cases ho : env.fhOutcome a with
    | httpErr s => simp
    | netErr n => simp
    | jsonResp c pc => cases c <;> simp [stripRaw]

theorem stockFallback_strip (env : Env) (ids : List String) (m0 : QuoteMap)
    (e0 : List String) :
    stockFallback (stripEnv env) ids (stripMap m0) e0 =
      (stripMap (stockFallback env ids m0 e0).1,
       (stockFallback env ids m0 e0).2.1, (stockFallback env ids m0 e0).2.2) := by
  unfold stockFallback
  have hmiss : ((wantStocks ids).filter (fun sym => !truthyPrice (stripMap m0 sym))) =
      ((wantStocks ids).filter (fun sym => !truthyPrice (m0 sym))) := by
    refine List.filter_congr (fun a _ => ?_)
    rw [truthyPrice_stripMap]
  have htok : (stripEnv env).fhToken = env.fhToken := rfl
  rw [hmiss, htok]
  by_cases hc : (!((wantStocks ids).filter (fun sym => !truthyPrice (m0 sym))).isEmpty
      && env.fhToken) = true
  · rw [if_pos hc, if_pos hc]
    rw [fetchFinnhub_strip]
    have hasn := assign_stripMap
      (fetchFinnhub env ((wantStocks ids).filter (fun sym => !truthyPrice (m0 sym)))).data m0
    rw [fetchFinnhub_data_err_free env
      ((wantStocks ids).filter (fun sym => !truthyPrice (m0 sym)))] at hasn
    simp only [hasn]
  · rw [if_neg hc, if_neg hc]

theorem spxBackfill_strip (st : ServerState) (ids : List String) (m1 : QuoteMap)
    (e1 : List String) :
    spxBackfill st ids (stripMap m1) e1 =
      (stripMap (spxBackfill st ids m1 e1).1,
       (spxBackfill st ids m1 e1).2.1, (spxBackfill st ids m1 e1).2.2) := by
  unfold spxBackfill
  rw [truthyPrice_stripMap]
  by_cases hg : (wantSPX ids && !truthyPrice (m1 "^GSPC")) = true
  · rw [if_pos hg, if_pos hg]
    cases hM : st.lastGoodById "^GSPC" with
    | none => rfl
    | some mem =>
      simp only
      have hsrc : (match stripMap m1 "^GSPC" with
          | some q =>
            match q.source with
            | some s => if (s == "") = true then "snapshot-id" else s
            | none => "snapshot-id"
          | none => "snapshot-id") =
          (match m1 "^GSPC" with
          | some q =>
            match q.source with
            | some s => if (s == "") = true then "snapshot-id" else s
            | none => "snapshot-id"
          | none => "snapshot-id") := by
        cases h1 : m1 "^GSPC" with
        | none => simp [stripMap, h1]
        | some q => simp [stripMap, h1, stripRaw]
      rw [hsrc]
      refine Prod.ext ?_ rfl
      funext s
      by_cases hs : s = "^GSPC" <;> simp [hs, stripMap, stripRaw]
  · rw [if_neg hg, if_neg hg]

theorem pipeline_strip (st : ServerState) (env : Env) (ids : List String) :
    (pipeline st (stripEnv env) ids).items = (pipeline st env ids).items ∧
    (pipeline st (stripEnv env) ids).errors = (pipeline st env ids).errors ∧
    (pipeline st (stripEnv env) ids).fhCalled = (pipeline st env ids).fhCalled ∧
    (pipeline st (stripEnv env) ids).spxUsedLastGood =
      (pipeline st env ids).spxUsedLastGood ∧
    (pipeline st (stripEnv env) ids).hasAnyPrice = (pipeline st env ids).hasAnyPrice := by
  have hitems : ∀ (m : QuoteMap),
      (ids.map (fun id => mapItem id ((stripMap m id).getD emptyRaw))) =
        (ids.map (fun id => mapItem id ((m id).getD emptyRaw))) := by
    intro m
    refine List.map_congr_left (fun a _ => ?_)
    cases h : m a with
    | none => simp [stripMap, h]
    | some q => simp [stripMap, h, mapItem_stripRaw]
  simp only [pipeline, runPrimary_strip, stockFallback_strip, spxBackfill_strip]
  exact ⟨hitems _, trivial, trivial, trivial, by rw [hitems _]⟩

theorem livePayload_strip (st : ServerState) (env : Env) (ids : List String) :
    livePayload st (stripEnv env) ids = livePayload st env ids := by
  have h := pipeline_strip st env ids
  simp only [livePayload, h.1, h.2.1, h.2.2.1]
  rfl

/-- C10: a raw record whose only populated field is the per-symbol `__error`
marker normalizes exactly like the empty record — null price and prevClose,
source `unknown`, null changes, direction `flat` — and the marker is inert
for the whole handler: erasing every `__error` field from every adapter
result leaves the response (its `meta.errors` list included) and the
resulting module state unchanged, so the marker is never surfaced. -/
theorem C10_error_marker_inert :
    (∀ (id : String) (e : String),
      mapItem id { emptyRaw with err := some e } = mapItem id emptyRaw) ∧
    (∀ id : String, (mapItem id emptyRaw).price = none ∧
      (mapItem id emptyRaw).prevClose = none ∧
      (mapItem id emptyRaw).source = "unknown" ∧
      (mapItem id emptyRaw).changeAbs = none ∧
      (mapItem id emptyRaw).changePct = none ∧
      (mapItem id emptyRaw).direction = "flat") ∧
    (∀ (st : ServerState) (env : Env) (ids : List String),
      (handlerRun st (stripEnv env) ids).resp = (handlerRun st env ids).resp ∧
      (handlerRun st (stripEnv env) ids).st = (handlerRun st env ids).st) := by
  refine ⟨fun id e => rfl, fun id => ⟨rfl, rfl, rfl, rfl, rfl, rfl⟩, ?_⟩
  intro st env ids
  have hp := pipeline_strip st env ids
  have hfault : (stripEnv env).fault = env.fault := rfl
  have hnow : (stripEnv env).now = env.now := rfl
  have hdebug : (stripEnv env).debug = env.debug := rfl
  unfold handlerRun
  rw [hfault]
  cases hf : env.fault with
  | some msg =>
    cases hS : st.lastGoodSnapshot <;> simp [stripEnv]
  | none =>
    simp only
    rw [hp.1, hp.2.2.2.2, hnow, hdebug, hp.2.2.1, livePayload_strip]
    exact ⟨rfl, rfl⟩
